import Mathlib

set_option autoImplicit false

/-!
Verification of the llpr PDF parser (Rust) against its natural-language
specification.  Rust functions are shallowly embedded as Lean functions:
byte buffers become `List Nat`, characters become `Char`, machine integers
become `Nat`/`Int` with explicit truncation where Rust `as` casts occur,
and fallible code returns `Except PdfError _`.  Code paths on which the
Rust program would panic (integer underflow in debug builds, out-of-range
slice indexing in release builds) are modelled by the `panicked`
constructor of `RResult`.
-/

namespace Llpr

/-- Outcome of a Rust computation that may also panic (abort).  `ok` and
`err` mirror `Result::Ok` / `Result::Err`; `panicked` marks inputs on which
the Rust code aborts (arithmetic underflow or slice-index panic). -/
inductive RResult (ε α : Type) where
  | ok (val : α)
  | err (e : ε)
  | panicked
  deriving DecidableEq, Repr

/-- Keyword table of `build.rs` (`codegen_keywords.rs`).  `r#true`,
`r#false` and `r#null` of the Rust enum are spelled `rtrue`, `rfalse`,
`rnull` because those identifiers are reserved in Lean. -/
inductive PdfKeyword where
  | Unknown
  | endobj
  | endstream
  | f
  | rfalse
  | n
  | rnull
  | obj
  | R
  | stream
  | trailer
  | rtrue
  | startxref
  | xref
  deriving DecidableEq, Repr

/-- Well-known-name table (`build.rs`, `codegen_names.rs`), restricted to
the variants the embedded functions mention.  The checked-in `build.rs`
names list is stale: it lacks `Parent`, `Contents`, `Resources`, `Kids`,
`Filter` and `DecodeParms`, which `pdf_document.rs` and `streams.rs`
use; those variants are included here from their uses in the source (and
the spec, which lists them as well-known keys). -/
inductive PdfName where
  | Unknown
  | ASCIIHexDecode
  | ASCII85Decode
  | LZWDecode
  | FlateDecode
  | RunLengthDecode
  | CCITTFaxDecode
  | JBIG2Decode
  | DCTDecode
  | Crypt
  | Filter
  | DecodeParms
  | Parent
  | Contents
  | Resources
  | Length
  | Size
  | Root
  | Pages
  | Page
  | Kids
  | Prev
  | Metadata
  | Info
  deriving DecidableEq, Repr

/-- Error enum of `src/src/errors.rs`.  The `InvalidPageNumber` variant is
used by `pdf_document.rs` but absent from the checked-in `errors.rs`
(stale file); it is modelled from the spec, whose error table (spec §7)
lists `InvalidPageNumber` with meaning "Page index out of bounds".
Diagnostic payloads (`&'static str` / `String`) become `String`; the
payloads of `IoError`, `ParseIntError`, `ParseFloatError` are dropped. -/
inductive PdfError where
  | DecompressionError (detail : String)
  | InternalError (detail : String)
  | InvalidPdf (detail : String)
  | KeywordExpected (k : PdfKeyword)
  | InvalidReference
  | InvalidReferenceTarget
  | InvalidTrailerDictionary
  | InvalidCatalog
  | InvalidPages
  | InvalidPage
  | InvalidPageNumber
  | EndOfFile
  | IoError
  | ParseIntError
  | ParseFloatError
  deriving DecidableEq, Repr

/-- `"trailer".as_bytes()` — the 7 ASCII bytes of `trailer`. -/
def trailerBytes : List Nat := [116, 114, 97, 105, 108, 101, 114]

/-- Bytes of an ASCII string, for concrete test buffers. -/
def bytesOfString (s : String) : List Nat := s.toList.map Char.toNat

/-- The word `trailer` occurs in `buffer` at index `i`. -/
def occursAt (buffer : List Nat) (i : Nat) : Prop :=
  (buffer.drop i).take 7 = trailerBytes

instance (buffer : List Nat) (i : Nat) : Decidable (occursAt buffer i) := by
  unfold occursAt; infer_instance

/-- The descending scan of `find_trailer` (`for i in (0..=len-7).rev()`),
starting at index `i` and stepping down to 0.  The condition `occursAt
buffer i` is, by definition, the source's slice comparison
`&buffer[i..i + trailer.len()] == trailer`. -/
def findTrailerLoop (position : Nat) (buffer : List Nat) : Nat → RResult PdfError Nat
  | 0 =>
    if occursAt buffer 0 then .ok (position + 0 + 7)
    else .err (.InvalidPdf "no trailer")
  | i + 1 =>
    if occursAt buffer (i + 1) then .ok (position + (i + 1) + 7)
    else findTrailerLoop position buffer i

/-- `find_trailer` of `src/src/pdf_document.rs` (and, identically,
`src/src/pdf_source.rs`).  The Rust loop bound is
`buffer.len() - trailer.len()` on `usize`: when `buffer.len() < 7` the
subtraction underflows, which panics in debug builds and produces an
out-of-range slice index (also a panic) in release builds; that path is
modelled as `panicked`. -/
def find_trailer (position : Nat) (buffer : List Nat) : RResult PdfError Nat :=
  if buffer.length < trailerBytes.length then .panicked
  else findTrailerLoop position buffer (buffer.length - trailerBytes.length)

/-! ## Tokenizer (`src/src/next_token.rs`) -/

/-- PDF whitespace set of the tokenizer: space, tab, LF, CR, FF. -/
def isWhitespaceChar (c : Char) : Bool :=
  c = ' ' || c = '\t' || c = '\n' || c = '\r' || c = Char.ofNat 12

/-- Value of a hex digit, `none` for a non-hex character
(`nybble` of `next_token.rs`, restricted to the `Some` input case). -/
def nybbleVal (c : Char) : Option Nat :=
  if '0' ≤ c ∧ c ≤ '9' then some (c.toNat - 48)
  else if 'A' ≤ c ∧ c ≤ 'F' then some (10 + (c.toNat - 65))
  else if 'a' ≤ c ∧ c ≤ 'f' then some (10 + (c.toNat - 97))
  else none

/-- Loop of `hex_string` (`next_token.rs`); state `(value, hex, first,
string)` as in the source.  Each arm first performs the `match` body and
then the unconditional trailing `if first { value = hex } else
{ string.push((value << 4) | hex) }` of the Rust loop — including after
the (otherwise empty) whitespace arm.  At end of input the Rust code
takes the catch-all arm and `nybble(None)` yields `EndOfFile`. -/
def hexStringLoop : List Char → Nat → Nat → Bool → List Nat →
    Except PdfError (List Nat)
  | [], _, _, _, _ => .error .EndOfFile
  | c :: rest, value, hex, first, string =>
    if isWhitespaceChar c then
      if first then hexStringLoop rest hex hex first string
      else hexStringLoop rest value hex first (string ++ [16 * value + hex])
    else if c = '>' then
      .ok (if first then string ++ [16 * hex] else string)
    else
      match nybbleVal c with
      | some h =>
        if first then hexStringLoop rest value h false (string ++ [16 * value + h])
        else hexStringLoop rest h h true string
      | none => .error (.InvalidPdf "invalid hex character")

/-- `hex_string` of `next_token.rs`: tokenize the input following the
opening `<`, up to the closing `>`.  Initial state
`value = 0, hex = 0, first = false, string = []` as in the source. -/
def hex_string (input : List Char) : Except PdfError (List Nat) :=
  hexStringLoop input 0 0 false []

/-- ASCII digit test (`'0'...'9'`). -/
def isDigitChar (c : Char) : Bool := '0' ≤ c && c ≤ '9'

/-- A character the number scanner keeps accumulating: a digit or `'.'`. -/
def isNumChar (c : Char) : Bool := isDigitChar c || c = '.'

/-- Accumulation loop of `number` (`next_token.rs`): push digits, push
every `'.'` (setting the `decimal` flag each time — the source never
checks the flag before pushing another `'.'`), stop and back up at the
first other character.  Returns `(accumulated text, decimal flag,
remaining input)`. -/
def numberLoop : List Char → List Char → Bool → List Char × Bool × List Char
  | [], acc, decimal => (acc, decimal, [])
  | c :: rest, acc, decimal =>
    if isDigitChar c then numberLoop rest (acc ++ [c]) decimal
    else if c = '.' then numberLoop rest (acc ++ ['.']) true
    else (acc, decimal, c :: rest)

/-- Digits-only value of a nonempty all-digit string, else `none`
(the core of Rust `str::parse`). -/
def natDigits (s : List Char) : Option Nat :=
  if s ≠ [] ∧ s.all isDigitChar then
    some (s.foldl (fun a c => 10 * a + (c.toNat - 48)) 0)
  else none

/-- Rust `str::parse::<i64>` on the scanner's alphabet: an optional sign
followed by at least one digit, rejecting values outside the i64 range. -/
def parseI64 (s : List Char) : Option Int :=
  match s with
  | '+' :: rest =>
    (natDigits rest).bind fun v =>
      if (v : Int) ≤ 2 ^ 63 - 1 then some (v : Int) else none
  | '-' :: rest =>
    (natDigits rest).bind fun v =>
      if (v : Int) ≤ 2 ^ 63 then some (-(v : Int)) else none
  | _ =>
    (natDigits s).bind fun v =>
      if (v : Int) ≤ 2 ^ 63 - 1 then some (v : Int) else none

/-- Whether Rust `str::parse::<f64>` succeeds on the scanner's output.
The scanner only produces strings over `+ - . 0..9` with a sign possible
only in first position, and on that alphabet the Rust float grammar
accepts exactly: optional sign, then characters all digits or `'.'`,
with at most one `'.'` and at least one digit. -/
def parseF64ok (s : List Char) : Bool :=
  let t := match s with
    | c :: rest => if c = '+' ∨ c = '-' then rest else s
    | [] => s
  t.all isNumChar && t.count '.' ≤ 1 && t.any isDigitChar

/-- Tokens produced by the number scanner.  `Real` carries the
accumulated text rather than an IEEE-754 value: `f64` has no faithful
executable counterpart here, and no claim depends on float arithmetic. -/
inductive PdfToken where
  | Integer (i : Int)
  | Real (text : List Char)
  deriving DecidableEq, Repr

/-- `number` of `next_token.rs`: `first` is the already-consumed first
character (`+`, `-`, `.` or a digit in the callers); the decimal flag
starts as `first == '.'`.  If the flag is set the text is parsed as f64
(`Real`), otherwise as i64 (`Integer`); a failing parse propagates as
`ParseFloatError` / `ParseIntError` via the `?` conversion. -/
def number (first : Char) (input : List Char) : Except PdfError PdfToken :=
  let r := numberLoop input [first] (first = '.')
  if r.2.1 then
    if parseF64ok r.1 then .ok (.Real r.1) else .error .ParseFloatError
  else
    match parseI64 r.1 with
    | some i => .ok (.Integer i)
    | none => .error .ParseIntError

/-! ## Object model (`src/src/pdf_types.rs`, `src/src/next_object.rs`) -/

/-- `Reference { id: u32, gen: u16 }`.  The fields are `Nat`s; the `as
u32` / `as u16` truncations are applied where the source applies them. -/
structure Reference where
  id : Nat
  gen : Nat
  deriving DecidableEq, Repr

/-- Rust `i64 as u32`: the low 32 bits, read as unsigned. -/
def asU32 (i : Int) : Nat := (i % (2 ^ 32 : Int)).toNat

/-- Rust `i64 as u16`: the low 16 bits, read as unsigned. -/
def asU16 (i : Int) : Nat := (i % (2 ^ 16 : Int)).toNat

/-- `PdfNumber`.  `Real` carries the token text (see `PdfToken.Real`). -/
inductive PdfNumber where
  | Integer (i : Int)
  | Real (text : List Char)

/-- `PdfObject` of `pdf_types.rs`.  `Dictionary` (`Box<HashMap<PdfName,
PdfObject>>`) is modelled as an association list with at-most-one entry
per key; `Array` (`Box<Vec<_>>`) as a list; `PdfString` as byte list. -/
inductive PdfObject where
  | Null
  | Keyword (k : PdfKeyword)
  | Boolean (b : Bool)
  | Number (n : PdfNumber)
  | String (s : List Nat)
  | Name (n : PdfName)
  | Symbol (s : List Nat)
  | Array (a : List PdfObject)
  | Dictionary (d : List (PdfName × PdfObject))
  | Reference (r : Reference)

/-- Association-list form of the `Dictionary` type alias. -/
abbrev Dict := List (PdfName × PdfObject)

/-- `HashMap::insert`: replace the entry of `k` if present, else add. -/
def dictInsert (k : PdfName) (v : PdfObject) (d : Dict) : Dict :=
  if d.any (fun kv => kv.1 = k) then
    d.map (fun kv => if kv.1 = k then (k, v) else kv)
  else d ++ [(k, v)]

/-- `HashMap::get`, as first-entry lookup. -/
def dictGet (k : PdfName) (d : Dict) : Option PdfObject :=
  (d.find? (fun kv => kv.1 = k)).map (fun kv => kv.2)

/-- `HashMap::remove`: the removed value (if any) and the rest. -/
def dictRemove (k : PdfName) (d : Dict) : Option PdfObject × Dict :=
  (dictGet k d, d.filter (fun kv => ¬ kv.1 = k))

/-- A `PdfObject` of the form `Number (Integer _)`. -/
def isInteger : PdfObject → Bool
  | .Number (.Integer _) => true
  | _ => false

/-- `reference` of `next_object.rs`: fold the postfix keyword `R`.  Pops
`gen` then `id` off the end of the collected vector; both must be
`Integer`s; pushes `Reference { id as u32, gen as u16 }`. -/
def reference (array : List PdfObject) : Except PdfError (List PdfObject) :=
  if array.length < 2 then .error (.InvalidPdf "not enough arguments for R")
  else
    match array.reverse with
    | gen :: id :: restRev =>
      match id, gen with
      | .Number (.Integer i), .Number (.Integer g) =>
        .ok ((PdfObject.Reference ⟨asU32 i, asU16 g⟩ :: restRev).reverse)
      | _, _ => .error (.InvalidPdf "invalid arguments to R")
    | _ => .error (.InvalidPdf "not enough arguments for R")

/-- One iteration of the collection loops of `array` / `dictionary`
(`next_object.rs`): `Keyword(R)` folds a reference, any other parsed
object is pushed. -/
def collectStep (acc : List PdfObject) (item : PdfObject) :
    Except PdfError (List PdfObject) :=
  match item with
  | .Keyword .R => reference acc
  | obj => .ok (acc ++ [obj])

/-- The collection loop, fed the sequence of inner objects produced by
the recursive `next_object` calls (in parse order). -/
def collect (items : List PdfObject) : Except PdfError (List PdfObject) :=
  items.foldlM collectStep []

/-- Closing phase of `dictionary` (`next_object.rs`): pop `value` then
`name` off the end of the collected vector until empty; `Name` keys are
inserted, `Symbol` keys silently discarded, anything else is an error.
The input here is the collected vector reversed (popping the end of a
Rust `Vec` is taking the head of its reversal); a leftover singleton —
impossible after the `Null` padding — is the path on which the second
`pop().unwrap()` of the source would panic. -/
def dictionaryFinishLoop : List PdfObject → Dict → RResult PdfError Dict
  | [], dict => .ok dict
  | value :: name :: rest, dict =>
    match name with
    | .Name n => dictionaryFinishLoop rest (dictInsert n value dict)
    | .Symbol _ => dictionaryFinishLoop rest dict
    | _ => .err (.InvalidPdf "malformed dictionary")
  | [_], _ => .panicked

/-- Closing phase of `dictionary` (`next_object.rs`) applied to the
collected flat sequence `array` (in push order): pad with `Null` when
the count is odd, then run the popping loop. -/
def dictionaryFinish (array : List PdfObject) : RResult PdfError Dict :=
  let a := if array.length % 2 ≠ 0 then array ++ [PdfObject.Null] else array
  dictionaryFinishLoop a.reverse []

/-- Consecutive (key, value) pairs of a flat sequence. -/
def toPairs : List PdfObject → List (PdfObject × PdfObject)
  | k :: v :: rest => (k, v) :: toPairs rest
  | _ => []

/-- A dictionary key the closing phase accepts: `Name` or `Symbol`. -/
def isNameOrSymbol : PdfObject → Bool
  | .Name _ => true
  | .Symbol _ => true
  | _ => false

/-- Insertion step over (key, value) pairs: `Name` keys are inserted,
other keys contribute nothing. -/
def insStep (d : Dict) (kv : PdfObject × PdfObject) : Dict :=
  match kv.1 with
  | .Name n => dictInsert n kv.2 d
  | _ => d

/-- The dictionary-construction claim, stated in the claim's own words:
pad an odd-length sequence with a trailing `Null`; pair up (key, value);
if any key is neither a `Name` nor a `Symbol` the parse fails with
`InvalidPdf "malformed dictionary"`; otherwise insert the `Name`-keyed
pairs processing pairs from the tail backward (`Symbol` pairs are
discarded). -/
def dictionarySpec (array : List PdfObject) : Except PdfError Dict :=
  let p := if array.length % 2 ≠ 0 then array ++ [PdfObject.Null] else array
  let kvs := toPairs p
  if kvs.all (fun kv => isNameOrSymbol kv.1) then
    .ok (kvs.reverse.foldl insStep [])
  else .error (.InvalidPdf "malformed dictionary")

/-- Embed an `Except` outcome into `RResult` (no panic). -/
def RResult.ofExcept {ε α : Type} : Except ε α → RResult ε α
  | .ok a => .ok a
  | .error e => .err e

/-! ## Stream decoder (`src/src/streams.rs`) -/

/-- `Filter` record of `streams.rs`. -/
structure Filter where
  name : PdfName
  decodeParms : Option Dict

/-- Rust `Iterator::collect::<Result<Vec<_>, _>>`: map, stopping at the
first error. -/
def exceptMapList {α β : Type} (f : α → Except PdfError β) :
    List α → Except PdfError (List β)
  | [] => .ok []
  | a :: rest =>
    match f a with
    | .ok b => (exceptMapList f rest).map (fun l => b :: l)
    | .error e => .error e

/-- `filters` of `streams.rs`: read `/Filter` and `/DecodeParms` out of
the stream dictionary and normalize to a filter list. -/
def filters (stream_dict : Dict) : Except PdfError (List Filter) :=
  match (dictRemove .Filter stream_dict).1,
        (dictRemove .DecodeParms ((dictRemove .Filter stream_dict).2)).1 with
  | some (.Name name), none => .ok [⟨name, none⟩]
  | some (.Name name), some (.Dictionary dp) => .ok [⟨name, some dp⟩]
  | some (.Array names), none =>
    exceptMapList (fun o =>
      match o with
      | .Name name => .ok ⟨name, none⟩
      | _ => .error (.InvalidPdf "name expected")) names
  | some (.Array names), some (.Array dps) =>
    exceptMapList (fun item =>
      match item with
      | (.Name name, .Dictionary dp) => .ok ⟨name, some dp⟩
      | _ => .error (.InvalidPdf "name/dictionary expected")) (names.zip dps)
  | none, none => .ok []
  | _, _ => .error (.InvalidPdf "invalid stream dictionary")

/-- Filter-application loop of `decode_stream`.  `inflate` abstracts the
external `inflate_bytes_zlib` (the `inflate` crate is outside this
repository).  The `DCTDecode` arm reproduces the source verbatim: its
diagnostic string says `JBIG2Decode filter not implemented`. -/
def decodeLoop (inflate : List Nat → Except String (List Nat)) :
    List Nat → List Filter → Except PdfError (List Nat)
  | stream, [] => .ok stream
  | stream, filter :: rest =>
    match filter.name with
    | .ASCIIHexDecode => .error (.InternalError "ASCIIHexDecode filter not implemented")
    | .ASCII85Decode => .error (.InternalError "ASCII85Decode filter not implemented")
    | .LZWDecode => .error (.InternalError "LZWDecode filter not implemented")
    | .FlateDecode =>
      match inflate stream with
      | .ok s => decodeLoop inflate s rest
      | .error e => .error (.DecompressionError e)
    | .RunLengthDecode => .error (.InternalError "RunLengthDecode filter not implemented")
    | .CCITTFaxDecode => .error (.InternalError "CCITTFaxDecode filter not implemented")
    | .JBIG2Decode => .error (.InternalError "JBIG2Decode filter not implemented")
    | .DCTDecode => .error (.InternalError "JBIG2Decode filter not implemented")
    | .Crypt => .error (.InternalError "Crypt filter not implemented")
    | _ => .error (.InvalidPdf "unknown filter")

/-- `decode_stream` of `streams.rs`. -/
def decode_stream (inflate : List Nat → Except String (List Nat))
    (stream : List Nat) (stream_dict : Dict) : Except PdfError (List Nat) :=
  match filters stream_dict with
  | .ok fs => decodeLoop inflate stream fs
  | .error e => .error e

/-! ## Document layer (`src/src/pdf_document.rs`) -/

/-- `FREE_GEN`: generation number marking a free xref slot. -/
def FREE_GEN : Nat := 0xffff

/-- `XRefEntry { gen: u16, position: u64 }`. -/
structure XRefEntry where
  gen : Nat
  position : Nat
  deriving DecidableEq, Repr

/-- `PdfDocument::seek_reference`: fail with `InvalidReference` when the
id is out of range or the table entry is free, else seek to the entry's
position (seeking an in-memory source cannot fail; the reached position
is returned).  Note the source tests `self.xref[id].gen`, the table
entry's generation — not `reference.gen`. -/
def seek_reference (xref : List XRefEntry) (r : Reference) :
    Except PdfError Nat :=
  if r.id ≥ xref.length ∨ (xref.getD r.id ⟨FREE_GEN, 0⟩).gen = FREE_GEN then
    .error .InvalidReference
  else .ok (xref.getD r.id ⟨FREE_GEN, 0⟩).position

/-- A structural key skipped by the dereference pass. -/
def isStructuralKey (k : PdfName) : Bool :=
  k = .Parent || k = .Contents || k = .Resources

/-- `PdfDocument::dereference`.  `fetch` abstracts
`seek_reference` + `read_object` against the document (the object stored
under a reference); `fuel` bounds the recursion depth, which is
unbounded in the source (a reference cycle outside the structural keys
makes the Rust code recurse forever).  A `Reference` is chased and the
result dereferenced again; an `Array` maps the pass over its elements,
propagating errors; a `Dictionary` keeps entries under `/Parent`,
`/Contents`, `/Resources` untouched and rewrites every other entry to
its dereferenced value, turning a failed dereference into `Null`
(`unwrap_or(PdfObject::Null)`) — the dictionary case itself always
succeeds.  Any other object is returned unchanged. -/
def dereference (fetch : Reference → Except PdfError PdfObject) :
    Nat → PdfObject → Except PdfError PdfObject
  | 0, _ => .error (.InternalError "recursion limit")
  | fuel + 1, obj =>
    match obj with
    | .Reference r =>
      match fetch r with
      | .ok o => dereference fetch fuel o
      | .error e => .error e
    | .Array a =>
      match a.mapM (dereference fetch fuel) with
      | .ok l => .ok (.Array l)
      | .error e => .error e
    | .Dictionary d =>
      .ok (.Dictionary (d.map (fun kv =>
        if isStructuralKey kv.1 then kv
        else (kv.1,
          match dereference fetch fuel kv.2 with
          | .ok o => o
          | .error _ => PdfObject.Null))))
    | o => .ok o

/-- `PageContents::new` (`src/src/page_contents.rs`): wrap the decoded
bytes, with a space pushed at the end to avoid a premature `EndOfFile`. -/
structure PageContents where
  source : List Nat
  deriving DecidableEq, Repr

/-- Constructor of `PageContents`. -/
def PageContents.new (contents : List Nat) : PageContents :=
  ⟨contents ++ [32]⟩

/-- `2^32`, the modulus of a `usize as u32` cast. -/
def U32LIMIT : Nat := 2 ^ 32

/-- `PdfDocument::page_count`: `self.pages.len() as u32`. -/
def page_count (pages : List Dict) : Nat := pages.length % U32LIMIT

/-- `PdfDocument::page_contents`.  `contents` abstracts
`PdfDocument::contents` (fetching and decoding the page's `/Contents`
stream(s) from the document source).  The page list index is in range
whenever the `pageno < pages.len() as u32` guard passes. -/
def page_contents (contents : Dict → Except PdfError (List Nat))
    (pages : List Dict) (pageno : Nat) : Except PdfError PageContents :=
  if pageno < pages.length % U32LIMIT then
    (contents (pages.getD pageno [])).map PageContents.new
  else .error .InvalidPageNumber

/-! ## Theorems -/

/-- An occurrence of `trailer` at `i` forces `i + 7 ≤ buffer.length`. -/
theorem occursAt_bound {buffer : List Nat} {i : Nat} (h : occursAt buffer i) :
    i + 7 ≤ buffer.length := by
  have h7 : ((buffer.drop i).take 7).length = trailerBytes.length := by rw [h]
  simp [List.length_take, List.length_drop, trailerBytes] at h7
  omega

/-- Beyond the buffer there is no occurrence. -/
theorem not_occursAt_of_ge {buffer : List Nat} {i : Nat}
    (h : buffer.length ≤ i) : ¬ occursAt buffer i := by
  intro hocc
  have := occursAt_bound hocc
  omega

/-- The descending scan started at `n` returns the largest occurrence
index at most `n`. -/
theorem findTrailerLoop_max (position : Nat) (buffer : List Nat) :
    ∀ n i, occursAt buffer i → i ≤ n →
      (∀ j, j ≤ n → occursAt buffer j → j ≤ i) →
      findTrailerLoop position buffer n = .ok (position + i + 7)
  | 0, i, hocc, hle, _ => by
    have hi : i = 0 := Nat.le_zero.mp hle
    subst hi
    simp only [findTrailerLoop]
    rw [if_pos hocc]
  | n + 1, i, hocc, hle, hmax => by
    by_cases htop : occursAt buffer (n + 1)
    · have hi : i = n + 1 := Nat.le_antisymm hle (hmax (n + 1) (Nat.le_refl _) htop)
      subst hi
      simp only [findTrailerLoop]
      rw [if_pos htop]
    · have hle' : i ≤ n := by
        rcases Nat.lt_or_ge i (n + 1) with h | h
        · exact Nat.lt_succ_iff.mp h
        · exact absurd ((Nat.le_antisymm hle h) ▸ hocc) htop
      simp only [findTrailerLoop]
      rw [if_neg htop]
      exact findTrailerLoop_max position buffer n i hocc hle'
        (fun j hj hocc' => hmax j (Nat.le_succ_of_le hj) hocc')

/-- The descending scan fails when no index at most `n` bears an
occurrence. -/
theorem findTrailerLoop_none (position : Nat) (buffer : List Nat) :
    ∀ n, (∀ j, j ≤ n → ¬ occursAt buffer j) →
      findTrailerLoop position buffer n = .err (.InvalidPdf "no trailer")
  | 0, h => by
    simp only [findTrailerLoop]
    rw [if_neg (h 0 (Nat.le_refl _))]
  | n + 1, h => by
    simp only [findTrailerLoop]
    rw [if_neg (h (n + 1) (Nat.le_refl _))]
    exact findTrailerLoop_none position buffer n
      (fun j hj => h j (Nat.le_succ_of_le hj))

/-- The descending scan never panics. -/
theorem findTrailerLoop_ne_panicked (position : Nat) (buffer : List Nat) :
    ∀ n, findTrailerLoop position buffer n ≠ .panicked
  | 0 => by
    simp only [findTrailerLoop]
    split <;> simp
  | n + 1 => by
    simp only [findTrailerLoop]
    split
    · simp
    · exact findTrailerLoop_ne_panicked position buffer n

/-- C1 (amended): when `trailer` occurs in the buffer, `find_trailer`
returns `position + i + 7` for `i` the largest occurrence index; when
the buffer has at least 7 bytes and `trailer` occurs nowhere it returns
`InvalidPdf "no trailer"` (for shorter buffers the code panics — see the
counterexample); and the three concrete examples of the spec hold. -/
theorem trailerBytes_length : trailerBytes.length = 7 := rfl

theorem find_trailer_spec :
    (∀ (position i : Nat) (buffer : List Nat),
      occursAt buffer i →
      (∀ j, j < buffer.length → occursAt buffer j → j ≤ i) →
      find_trailer position buffer = .ok (position + i + 7))
    ∧ (∀ (position : Nat) (buffer : List Nat),
      7 ≤ buffer.length →
      (∀ j, j < buffer.length → ¬ occursAt buffer j) →
      find_trailer position buffer = .err (.InvalidPdf "no trailer"))
    ∧ find_trailer 0 (bytesOfString "blah blah blah trailer blah blah blah") = .ok 22
    ∧ find_trailer 1000 (bytesOfString "blah blah blah trailer blah blah blah") = .ok 1022
    ∧ find_trailer 0 (bytesOfString "railer blah") = .err (.InvalidPdf "no trailer") := by
  refine ⟨?_, ?_, by decide, by decide, by decide⟩
  · intro position i buffer hocc hmax
    have hbound := occursAt_bound hocc
    unfold find_trailer
    rw [if_neg (by rw [trailerBytes_length]; omega)]
    exact findTrailerLoop_max position buffer (buffer.length - trailerBytes.length) i hocc
      (by rw [trailerBytes_length]; omega)
      (fun j hj hocc' => hmax j (by rw [trailerBytes_length] at hj; omega) hocc')
  · intro position buffer hlen hnone
    unfold find_trailer
    rw [if_neg (by rw [trailerBytes_length]; omega)]
    exact findTrailerLoop_none position buffer (buffer.length - trailerBytes.length)
      (fun j hj => hnone j (by rw [trailerBytes_length] at hj; omega))

/-- Witness for `find_trailer_spec` at concrete inputs. -/
theorem find_trailer_spec_witness :
    (occursAt (bytesOfString "ab trailer x") 3
      ∧ find_trailer 100 (bytesOfString "ab trailer x") = .ok 110)
    ∧ (7 ≤ (bytesOfString "no such word here").length
      ∧ find_trailer 0 (bytesOfString "no such word here")
          = .err (.InvalidPdf "no trailer")) :=
  ⟨⟨by decide, find_trailer_spec.1 100 3 _ (by decide) (by decide)⟩,
   ⟨by decide, find_trailer_spec.2.1 0 _ (by decide) (by decide)⟩⟩

/-- C1 counterexample: in the buffer `"abc"` the word `trailer` occurs
nowhere, yet `find_trailer` does not return `InvalidPdf "no trailer"` —
it panics (loop-bound underflow), refuting the claim's error clause as
universally stated. -/
theorem find_trailer_error_claim_counterexample :
    ¬ occursAt [97, 98, 99] 0
    ∧ ¬ occursAt [97, 98, 99] 1
    ∧ ¬ occursAt [97, 98, 99] 2
    ∧ find_trailer 0 [97, 98, 99] = .panicked
    ∧ find_trailer 0 [97, 98, 99] ≠ .err (.InvalidPdf "no trailer") :=
  ⟨by decide, by decide, by decide, by decide, by decide⟩

/-- C10 counterexample: on the empty buffer (and any buffer shorter than
7 bytes) `find_trailer` panics instead of returning a position or an
error, refuting totality as claimed. -/
theorem find_trailer_short_buffer_counterexample :
    find_trailer 0 [] = .panicked
    ∧ find_trailer 0 (bytesOfString "traile") = .panicked :=
  ⟨by decide, by decide⟩

/-- C10 (amended): `find_trailer` never panics on buffers of length at
least 7 (the pattern length); only shorter buffers hit the underflowing
loop bound. -/
theorem find_trailer_no_panic :
    ∀ (position : Nat) (buffer : List Nat), 7 ≤ buffer.length →
      find_trailer position buffer ≠ .panicked := by
  intro position buffer hlen
  unfold find_trailer
  rw [if_neg (by rw [trailerBytes_length]; omega)]
  exact findTrailerLoop_ne_panicked position buffer _

/-- Witness for `find_trailer_no_panic` at a concrete input. -/
theorem find_trailer_no_panic_witness :
    7 ≤ (bytesOfString "railer blah").length
    ∧ find_trailer 0 (bytesOfString "railer blah") ≠ .panicked :=
  ⟨by decide, find_trailer_no_panic 0 _ (by decide)⟩

/-- C3: evaluation of `hex_string` exhibiting the whitespace bug.  The
token `<12 34>` holds 4 hex digits, so the claim demands `ceil(4/2) = 2`
bytes `[0x12, 0x34]`; the code yields the 3 bytes `[0x12, 0x12, 0x34]`:
the Rust loop's trailing `if first .. else string.push(..)` also runs
after the (empty) whitespace arm, duplicating the byte completed last.
Without interior whitespace (`<1234>`, `<a>`, `<>`) the claimed byte
counts and odd-digit padding hold, and a non-hex byte is a syntax
error. -/
theorem hex_string_eval :
    hex_string ("12 34>".toList) = .ok [18, 18, 52]
    ∧ hex_string ("1234>".toList) = .ok [18, 52]
    ∧ hex_string ("a>".toList) = .ok [160]
    ∧ hex_string (">".toList) = .ok []
    ∧ hex_string ("12z>".toList) = .error (.InvalidPdf "invalid hex character") :=
  ⟨rfl, rfl, rfl, rfl, rfl⟩

/-- The number-scanner loop consumes exactly the maximal prefix of
digits and periods, accumulating all of it; the decimal flag ends up
true exactly when the flag started true or a period was consumed. -/
theorem numberLoop_spec :
    ∀ (input acc : List Char) (dec : Bool),
      numberLoop input acc dec =
        (acc ++ input.takeWhile isNumChar,
         dec || (input.takeWhile isNumChar).any (fun c => c = '.'),
         input.dropWhile isNumChar)
  | [], acc, dec => by simp [numberLoop]
  | c :: rest, acc, dec => by
    by_cases hd : isDigitChar c = true
    · have hnum : isNumChar c = true := by simp [isNumChar, hd]
      have hdot : (c = '.') = False := by
        refine eq_false ?_
        intro hc
        rw [hc] at hd
        exact absurd hd (by decide)
      simp [numberLoop, hd, hnum, numberLoop_spec rest (acc ++ [c]) dec, hdot]
    · by_cases hc : c = '.'
      · subst hc
        have hnum : isNumChar '.' = true := by decide
        simp [numberLoop, hd, hnum, numberLoop_spec rest (acc ++ ['.']) true]
      · have hnum : isNumChar c = false := by
          simp [isNumChar, hd]
          exact hc
        simp [numberLoop, hd, hc, hnum]

/-- C6 (amended): for every first character and input, the number
scanner accumulates the first character followed by the whole maximal
prefix of digits and periods of the input — every period, not just the
first — leaving the rest; the token is `Real` (the f64 parse of the
text, which fails with `ParseFloatError` when e.g. a second period was
accumulated) exactly when the text contains a period, and `Integer` (the
i64 parse of the text) otherwise. -/
theorem number_spec :
    ∀ (first : Char) (input : List Char),
      numberLoop input [first] (first = '.')
        = (first :: input.takeWhile isNumChar,
           (first :: input.takeWhile isNumChar).any (fun c => c = '.'),
           input.dropWhile isNumChar)
      ∧ number first input =
          (if (first :: input.takeWhile isNumChar).any (fun c => c = '.') then
            (if parseF64ok (first :: input.takeWhile isNumChar) then
              .ok (.Real (first :: input.takeWhile isNumChar))
            else .error .ParseFloatError)
          else
            (match parseI64 (first :: input.takeWhile isNumChar) with
            | some i => .ok (.Integer i)
            | none => .error .ParseIntError)) := by
  intro first input
  have h := numberLoop_spec input [first] (first = '.')
  constructor
  · rw [h]
    simp [List.any_cons]
  · unfold number
    rw [h]
    simp [List.any_cons]

/-- C6 counterexample: scanning the number that starts input `1.2.3 `
accumulates the full text `1.2.3` — two decimal points — into one token,
and the subsequent f64 parse fails with `ParseFloatError`; the claim
that a second decimal point is never accumulated is false. -/
theorem number_second_decimal_counterexample :
    (numberLoop (".2.3 ".toList) ['1'] false).1 = "1.2.3".toList
    ∧ ("1.2.3".toList.count '.') = 2
    ∧ number '1' (".2.3 ".toList) = .error .ParseFloatError :=
  ⟨by decide, by decide, rfl⟩

/-- Flattening (key, value) pairs back to the reversed collected vector:
for an even-length flat sequence, its reversal is the reversed pair list
flattened value-first. -/
theorem toPairs_even_flatten :
    ∀ (a : List PdfObject), a.length % 2 = 0 →
      a.reverse = ((toPairs a).reverse).flatMap (fun kv => [kv.2, kv.1])
  | [], _ => by simp [toPairs]
  | [_], h => by simp at h
  | k :: v :: rest, h => by
    have ih := toPairs_even_flatten rest (by simp [List.length_cons] at h ⊢; omega)
    simp only [toPairs, List.reverse_cons, List.append_assoc, List.flatMap_append, ih]
    simp

/-- The popping loop of `dictionary`, run on a flattened pair list,
checks every key and folds the insertions; it never panics. -/
theorem dictionaryFinishLoop_flat :
    ∀ (P : List (PdfObject × PdfObject)) (dict : Dict),
      dictionaryFinishLoop (P.flatMap (fun kv => [kv.2, kv.1])) dict =
        if P.all (fun kv => isNameOrSymbol kv.1) then .ok (P.foldl insStep dict)
        else .err (.InvalidPdf "malformed dictionary")
  | [], dict => by simp [dictionaryFinishLoop]
  | kv :: P, dict => by
    rcases kv with ⟨k, v⟩
    cases k
    case Name n =>
      show dictionaryFinishLoop (P.flatMap fun kv => [kv.2, kv.1])
          (dictInsert n v dict) = _
      rw [dictionaryFinishLoop_flat P]
      rfl
    case Symbol str =>
      show dictionaryFinishLoop (P.flatMap fun kv => [kv.2, kv.1]) dict = _
      rw [dictionaryFinishLoop_flat P]
      rfl
    all_goals rfl

/-- C4: the dictionary-closing phase of `next_object.rs`, run on the
collected flat sequence of inner values, agrees with the claim's
description (`dictionarySpec`): an odd-length sequence is padded with a
trailing `Null`; pairing from the tail backward, `Name` keys are
inserted, `Symbol` keys are silently discarded, and any other key type
fails the parse with `InvalidPdf "malformed dictionary"`.  In
particular the loop never reaches its panicking singleton case. -/
theorem dictionaryFinishLoop_reverse (p : List PdfObject)
    (hp : p.length % 2 = 0) :
    dictionaryFinishLoop p.reverse [] =
      RResult.ofExcept
        (if ((toPairs p).all fun kv => isNameOrSymbol kv.1) = true then
          Except.ok (((toPairs p).reverse).foldl insStep [])
        else Except.error (PdfError.InvalidPdf "malformed dictionary")) := by
  rw [toPairs_even_flatten p hp, dictionaryFinishLoop_flat, List.all_reverse]
  by_cases hall : ((toPairs p).all fun kv => isNameOrSymbol kv.1) = true <;>
    simp [hall, RResult.ofExcept]

theorem dictionary_finish_spec :
    ∀ (array : List PdfObject),
      dictionaryFinish array = RResult.ofExcept (dictionarySpec array) := by
  intro a
  show dictionaryFinishLoop
      ((if a.length % 2 ≠ 0 then a ++ [PdfObject.Null] else a).reverse) []
    = RResult.ofExcept
        (if ((toPairs (if a.length % 2 ≠ 0 then a ++ [PdfObject.Null] else a)).all
            fun kv => isNameOrSymbol kv.1) = true then
          Except.ok (((toPairs
            (if a.length % 2 ≠ 0 then a ++ [PdfObject.Null] else a)).reverse).foldl
              insStep [])
        else Except.error (PdfError.InvalidPdf "malformed dictionary"))
  generalize hq : (if a.length % 2 ≠ 0 then a ++ [PdfObject.Null] else a) = p
  have hpe : p.length % 2 = 0 := by
    rw [← hq]
    by_cases h : a.length % 2 ≠ 0
    · rw [if_pos h]
      simp only [List.length_append, List.length_cons, List.length_nil]
      omega
    · rw [if_neg h]
      omega
  exact dictionaryFinishLoop_reverse p hpe

/-- C5: folding the postfix keyword `R`.  Popping the last two collected
elements: when they are `Integer`s `id` and `gen` (in that order) the
fold appends `Reference { id as u32, gen as u16 }`; with fewer than two
elements, or a non-`Integer` among the popped two, the parse fails with
an `InvalidPdf` error; and the collection loop applies the fold to the
vector collected so far, before anything later is appended. -/
theorem reference_fold_spec :
    (∀ (front : List PdfObject) (i g : Int),
      reference (front ++ [.Number (.Integer i), .Number (.Integer g)])
        = .ok (front ++ [.Reference ⟨asU32 i, asU16 g⟩]))
    ∧ (∀ (a : List PdfObject), a.length < 2 →
      reference a = .error (.InvalidPdf "not enough arguments for R"))
    ∧ (∀ (front : List PdfObject) (x y : PdfObject),
      (isInteger x && isInteger y) = false →
      reference (front ++ [x, y]) = .error (.InvalidPdf "invalid arguments to R"))
    ∧ (∀ (items : List PdfObject),
      collect (items ++ [.Keyword .R]) = (collect items).bind reference) := by
  refine ⟨?_, ?_, ?_, ?_⟩
  · intro front i g
    unfold reference
    rw [if_neg (by simp)]
    simp
  · intro a ha
    unfold reference
    rw [if_pos ha]
  · intro front x y h
    unfold reference
    rw [if_neg (by simp)]
    rw [show (front ++ [x, y]).reverse = y :: x :: front.reverse by simp]
    rcases x with _ | _ | _ | nx | _ | _ | _ | _ | _ | _ <;>
      rcases y with _ | _ | _ | ny | _ | _ | _ | _ | _ | _ <;>
      try rfl
    all_goals try rcases nx with i | tx
    all_goals try rcases ny with g | ty
    all_goals first
      | rfl
      | simp [isInteger] at h
  · intro items
    unfold collect
    rw [List.foldlM_append]
    generalize List.foldlM collectStep [] items = m
    cases m with
    | ok acc =>
      show List.foldlM collectStep acc [PdfObject.Keyword PdfKeyword.R]
        = reference acc
      show collectStep acc (PdfObject.Keyword PdfKeyword.R) >>= _ = reference acc
      show reference acc >>= pure = reference acc
      cases reference acc <;> rfl
    | error e => rfl

/-- Witness for `reference_fold_spec` at concrete inputs. -/
theorem reference_fold_spec_witness :
    (([PdfObject.Null] : List PdfObject).length < 2
      ∧ reference [PdfObject.Null]
          = .error (.InvalidPdf "not enough arguments for R"))
    ∧ ((isInteger PdfObject.Null && isInteger (PdfObject.Boolean true)) = false
      ∧ reference [PdfObject.Keyword .obj, PdfObject.Null, PdfObject.Boolean true]
          = .error (.InvalidPdf "invalid arguments to R")) :=
  ⟨⟨by decide, reference_fold_spec.2.1 [PdfObject.Null] (by decide)⟩,
   ⟨by decide, reference_fold_spec.2.2.1 [PdfObject.Keyword .obj]
      PdfObject.Null (PdfObject.Boolean true) (by decide)⟩⟩

/-- C2: evaluation of `decode_stream` on each unimplemented filter.
Seven of the eight filters produce a not-implemented error naming
themselves, but `DCTDecode` produces an error naming `JBIG2Decode`: the
`DCTDecode` arm of `streams.rs` carries a copy-pasted diagnostic. -/
theorem decode_stream_not_implemented_eval :
    decode_stream (fun s => .ok s) [] [(PdfName.Filter, PdfObject.Name .DCTDecode)]
      = .error (.InternalError "JBIG2Decode filter not implemented")
    ∧ decode_stream (fun s => .ok s) [] [(PdfName.Filter, PdfObject.Name .ASCIIHexDecode)]
      = .error (.InternalError "ASCIIHexDecode filter not implemented")
    ∧ decode_stream (fun s => .ok s) [] [(PdfName.Filter, PdfObject.Name .ASCII85Decode)]
      = .error (.InternalError "ASCII85Decode filter not implemented")
    ∧ decode_stream (fun s => .ok s) [] [(PdfName.Filter, PdfObject.Name .LZWDecode)]
      = .error (.InternalError "LZWDecode filter not implemented")
    ∧ decode_stream (fun s => .ok s) [] [(PdfName.Filter, PdfObject.Name .RunLengthDecode)]
      = .error (.InternalError "RunLengthDecode filter not implemented")
    ∧ decode_stream (fun s => .ok s) [] [(PdfName.Filter, PdfObject.Name .CCITTFaxDecode)]
      = .error (.InternalError "CCITTFaxDecode filter not implemented")
    ∧ decode_stream (fun s => .ok s) [] [(PdfName.Filter, PdfObject.Name .JBIG2Decode)]
      = .error (.InternalError "JBIG2Decode filter not implemented")
    ∧ decode_stream (fun s => .ok s) [] [(PdfName.Filter, PdfObject.Name .Crypt)]
      = .error (.InternalError "Crypt filter not implemented") :=
  ⟨rfl, rfl, rfl, rfl, rfl, rfl, rfl, rfl⟩

/-- C7 counterexample: `seek_reference` tests the xref entry's
generation, not the reference's own `gen` field: the reference
`{ id: 0, gen: 0xFFFF }` against a table whose entry 0 is in use
(`gen = 0`, position 42) succeeds, refuting the claim that every
reference with `gen == 0xFFFF` fails to dereference with
`InvalidReference`. -/
theorem seek_reference_gen_counterexample :
    (Reference.mk 0 0xffff).gen = 0xffff
    ∧ seek_reference [⟨0, 42⟩] ⟨0, 0xffff⟩ = .ok 42 :=
  ⟨rfl, rfl⟩

/-- C7 (amended): `seek_reference` fails with `InvalidReference` exactly
when the reference's id is out of the xref table's range or the table
entry at that id carries the free generation `0xFFFF`; otherwise it
succeeds with the entry's position.  (The reference's own `gen` field is
not consulted here.) -/
theorem seek_reference_spec :
    ∀ (xref : List XRefEntry) (r : Reference),
      (r.id ≥ xref.length → seek_reference xref r = .error .InvalidReference)
      ∧ (∀ (h : r.id < xref.length),
          (xref.get ⟨r.id, h⟩).gen = FREE_GEN →
          seek_reference xref r = .error .InvalidReference)
      ∧ (∀ (h : r.id < xref.length),
          (xref.get ⟨r.id, h⟩).gen ≠ FREE_GEN →
          seek_reference xref r = .ok (xref.get ⟨r.id, h⟩).position) := by
  intro xref r
  refine ⟨?_, ?_, ?_⟩
  · intro h
    unfold seek_reference
    rw [if_pos (Or.inl h)]
  · intro h hgen
    have hd : xref.getD r.id ⟨FREE_GEN, 0⟩ = xref.get ⟨r.id, h⟩ := by
      rw [List.getD_eq_getElem xref _ h]
      simp [List.get_eq_getElem]
    unfold seek_reference
    rw [if_pos (Or.inr (by rw [hd]; exact hgen))]
  · intro h hgen
    have hd : xref.getD r.id ⟨FREE_GEN, 0⟩ = xref.get ⟨r.id, h⟩ := by
      rw [List.getD_eq_getElem xref _ h]
      simp [List.get_eq_getElem]
    unfold seek_reference
    rw [if_neg (by rw [hd]; push_neg; exact ⟨by omega, hgen⟩), hd]

/-- Witness for `seek_reference_spec` at concrete inputs. -/
theorem seek_reference_spec_witness :
    seek_reference [] ⟨5, 0⟩ = .error .InvalidReference
    ∧ seek_reference [⟨0xffff, 0⟩] ⟨0, 0⟩ = .error .InvalidReference
    ∧ seek_reference [⟨0, 42⟩] ⟨0, 0⟩ = .ok 42 :=
  ⟨(seek_reference_spec [] ⟨5, 0⟩).1 (by decide),
   (seek_reference_spec [⟨0xffff, 0⟩] ⟨0, 0⟩).2.1 (by decide) (by decide),
   (seek_reference_spec [⟨0, 42⟩] ⟨0, 0⟩).2.2 (by decide) (by decide)⟩

/-- Default entry for index-free dictionary-entry access in statements. -/
def dfltEntry : PdfName × PdfObject := (PdfName.Unknown, PdfObject.Null)

/-- C8: the dereference pass over a dictionary always succeeds and maps
entries pointwise: entries under the structural keys `/Parent`,
`/Contents`, `/Resources` are left exactly unchanged; every other entry
is rewritten to its recursively dereferenced value when that succeeds,
and to `Null` when it fails — the failure never propagates. -/
theorem dereference_dictionary_spec :
    ∀ (fetch : Reference → Except PdfError PdfObject) (fuel : Nat)
      (d : List (PdfName × PdfObject)),
      ∃ d', dereference fetch (fuel + 1) (.Dictionary d) = .ok (.Dictionary d')
        ∧ d'.length = d.length
        ∧ (∀ i, i < d.length →
            isStructuralKey (d.getD i dfltEntry).1 = true →
            d'.getD i dfltEntry = d.getD i dfltEntry)
        ∧ (∀ i, i < d.length →
            isStructuralKey (d.getD i dfltEntry).1 = false →
            (∀ o, dereference fetch fuel (d.getD i dfltEntry).2 = .ok o →
              d'.getD i dfltEntry = ((d.getD i dfltEntry).1, o))
            ∧ (∀ e, dereference fetch fuel (d.getD i dfltEntry).2 = .error e →
              d'.getD i dfltEntry = ((d.getD i dfltEntry).1, PdfObject.Null))) := by
  intro fetch fuel d
  refine ⟨d.map (fun kv =>
    if isStructuralKey kv.1 then kv
    else (kv.1,
      match dereference fetch fuel kv.2 with
      | .ok o => o
      | .error _ => PdfObject.Null)), rfl, by simp, ?_, ?_⟩
  · intro i hi hkey
    rw [List.getD_eq_getElem _ _ (by simpa using hi), List.getD_eq_getElem _ _ hi]
    rw [List.getElem_map]
    rw [List.getD_eq_getElem _ _ hi] at hkey
    rw [if_pos hkey]
  · intro i hi hkey
    rw [List.getD_eq_getElem _ _ hi] at hkey
    constructor
    · intro o ho
      rw [List.getD_eq_getElem _ _ (by simpa using hi), List.getElem_map,
        if_neg (by simp [hkey])]
      rw [List.getD_eq_getElem _ _ hi] at ho ⊢
      rw [ho]
    · intro e he
      rw [List.getD_eq_getElem _ _ (by simpa using hi), List.getElem_map,
        if_neg (by simp [hkey])]
      rw [List.getD_eq_getElem _ _ hi] at he ⊢
      rw [he]

/-- Witness for `dereference_dictionary_spec` at a concrete input: one
structural entry kept as is, one non-structural entry whose dereference
fails (fuel exhausted) and becomes `Null`. -/
theorem dereference_dictionary_spec_witness :
    ∃ d', dereference (fun _ => Except.ok PdfObject.Null) 1
        (.Dictionary [(PdfName.Parent, PdfObject.Boolean true),
          (PdfName.Length, PdfObject.Reference ⟨1, 0⟩)])
      = .ok (.Dictionary d')
      ∧ d'.getD 0 dfltEntry = (PdfName.Parent, PdfObject.Boolean true)
      ∧ d'.getD 1 dfltEntry = (PdfName.Length, PdfObject.Null) := by
  obtain ⟨d', h1, _, h3, h4⟩ :=
    dereference_dictionary_spec (fun _ => Except.ok PdfObject.Null) 0
      [(PdfName.Parent, PdfObject.Boolean true),
       (PdfName.Length, PdfObject.Reference ⟨1, 0⟩)]
  exact ⟨d', h1, h3 0 (by decide) (by decide),
    (h4 1 (by decide) (by decide)).2 (.InternalError "recursion limit") rfl⟩

/-- `exceptMapList` only raises errors raised by its function. -/
theorem exceptMapList_ne_err {α β : Type} (E : PdfError)
    (f : α → Except PdfError β) (hf : ∀ a, f a ≠ .error E) :
    ∀ (l : List α), exceptMapList f l ≠ .error E
  | [] => by simp [exceptMapList]
  | a :: rest => by
    simp only [exceptMapList]
    cases hfa : f a with
    | error e =>
      intro hcon
      exact hf a (by rw [hfa]; injection hcon with h; rw [h])
    | ok b =>
      cases hrest : exceptMapList f rest with
      | ok l => simp [Except.map]
      | error e =>
        intro hcon
        simp only [Except.map] at hcon
        injection hcon with h
        exact exceptMapList_ne_err E f hf rest (by rw [hrest, h])

/-- `filters` never raises `InvalidPageNumber`. -/
theorem filters_ne_invalidPageNumber (d : Dict) :
    filters d ≠ .error .InvalidPageNumber := by
  unfold filters
  split
  · simp
  · simp
  · apply exceptMapList_ne_err
    intro a
    split <;> simp
  · apply exceptMapList_ne_err
    intro a
    split <;> simp
  · simp
  · simp

/-- `decodeLoop` never raises `InvalidPageNumber`. -/
theorem decodeLoop_ne_invalidPageNumber
    (inflate : List Nat → Except String (List Nat)) :
    ∀ (fs : List Filter) (stream : List Nat),
      decodeLoop inflate stream fs ≠ .error .InvalidPageNumber
  | [], stream => by simp [decodeLoop]
  | f :: rest, stream => by
    rcases f with ⟨name, dp⟩
    cases name <;> simp only [decodeLoop] <;> try simp
    case FlateDecode =>
      cases h : inflate stream with
      | ok s => exact decodeLoop_ne_invalidPageNumber inflate rest s
      | error e => simp

/-- C9: `page_contents` fails with `InvalidPageNumber` exactly when the
index is at least `page_count` (for any content-retrieval function that
never itself raises `InvalidPageNumber`); below `page_count` it returns
the wrapped content iterator or the retrieval error unchanged.  The
embedded stream decoder indeed never raises `InvalidPageNumber`. -/
theorem page_contents_spec :
    (∀ (contents : Dict → Except PdfError (List Nat))
      (pages : List Dict) (pageno : Nat),
      (∀ d, contents d ≠ .error .InvalidPageNumber) →
      ((page_contents contents pages pageno = .error .InvalidPageNumber)
        ↔ page_count pages ≤ pageno)
      ∧ (pageno < page_count pages →
        page_contents contents pages pageno
          = (contents (pages.getD pageno [])).map PageContents.new))
    ∧ (∀ (inflate : List Nat → Except String (List Nat))
      (stream : List Nat) (d : Dict),
      decode_stream inflate stream d ≠ .error .InvalidPageNumber) := by
  constructor
  · intro contents pages pageno h
    unfold page_contents page_count
    by_cases hlt : pageno < pages.length % U32LIMIT
    · rw [if_pos hlt]
      constructor
      · constructor
        · intro hcon
          exfalso
          cases hc : contents (pages.getD pageno []) with
          | ok l => rw [hc] at hcon; simp [Except.map] at hcon
          | error e =>
            rw [hc] at hcon
            simp only [Except.map] at hcon
            injection hcon with he
            exact h _ (by rw [hc, he])
        · intro hcon
          omega
      · intro _
        rfl
    · rw [if_neg hlt]
      constructor
      · constructor
        · intro _
          omega
        · intro _
          rfl
      · intro hcon
        omega
  · intro inflate stream d
    unfold decode_stream
    cases hf : filters d with
    | ok fs => exact decodeLoop_ne_invalidPageNumber inflate fs stream
    | error e =>
      intro hcon
      injection hcon with he
      exact filters_ne_invalidPageNumber d (by rw [hf, he])

/-- Witness for `page_contents_spec` at concrete inputs. -/
theorem page_contents_spec_witness :
    ((page_contents (fun _ => .ok []) [[]] 1 = .error .InvalidPageNumber)
      ↔ page_count [[]] ≤ 1)
    ∧ (0 < page_count [[]] →
      page_contents (fun _ => .ok []) [[]] 0
        = ((fun (_ : Dict) => Except.ok ([] : List Nat))
            (([[]] : List Dict).getD 0 [])).map PageContents.new) :=
  ⟨(page_contents_spec.1 (fun _ => .ok []) [[]] 1
      (fun _ hc => Except.noConfusion hc)).1,
   (page_contents_spec.1 (fun _ => .ok []) [[]] 0
      (fun _ hc => Except.noConfusion hc)).2⟩

end Llpr
